import Mathlib

/-!
Shallow embedding of `src/api/index.js` (a single-file HTTP API handler for a
news-posting application) and proofs about its news repository, validation,
authentication gate and routing.

Modelling conventions:
* JavaScript runtime values appearing in request bodies and item ids are
  modelled by `JSValue` (undefined, null, booleans, integer numbers, strings).
  Non-integer numbers and NaN are not needed by any claim and are omitted.
* `createdAt` is stored by the source as an ISO-8601 string and compared via
  `new Date(x).getTime()`; since ISO-8601 strings produced by `toISOString`
  are order-isomorphic to their millisecond timestamps, `createdAt` is
  modelled directly as the integer millisecond timestamp.
* The durable store `data.json` is modelled by `FileContent`: it may be
  absent/unreadable/not-JSON/JSON-without-a-news-array, or hold a list of
  items.  `fs.readFileSync`+`JSON.parse`+`Array.isArray` in
  `readNewsFromFile` collapse exactly to this case split.
* External library calls (`jsonwebtoken`'s `sign`/`verify`, `JSON.parse`)
  are not repository code; they enter the model as explicit parameters of
  the environment `Env`, with a spec-modelled reference verifier `jwtVerify`.
* Array.prototype.sort with comparator `(a, b) => bT - aT` is a stable sort
  (required by ECMAScript); it is modelled by Mathlib's stable
  `List.insertionSort` with the relation `newsLE` (descending `createdAt`).
-/

/-- Model of the JavaScript values relevant to this API: `undefined`, `null`,
booleans, (integer) numbers and strings. -/
inductive JSValue where
  | undefined
  | null
  | bool (b : Bool)
  | num (n : Int)
  | str (s : String)
deriving DecidableEq, Repr

/-- JavaScript truthiness of a `JSValue` (`undefined`, `null`, `false`, `0`
and `""` are falsy). -/
def JSValue.truthy : JSValue → Bool
  | .undefined => false
  | .null => false
  | .bool b => b
  | .num n => n != 0
  | .str s => s != ""

/-- JavaScript `String(v)` coercion. -/
def JSValue.toJsString : JSValue → String
  | .undefined => "undefined"
  | .null => "null"
  | .bool b => if b then "true" else "false"
  | .num n => toString n
  | .str s => s

/-- The JavaScript `\s` whitespace class (the characters relevant here:
ASCII whitespace, no-break space, BOM). -/
def isJsWs (c : Char) : Bool :=
  c = ' ' || c = '\t' || c = '\n' || c = '\r' || c = '\x0b' || c = '\x0c' ||
  c = '\u00A0' || c = '\uFEFF'

/-- JavaScript line terminators (not matched by `.` in a regex). -/
def isLineTerm (c : Char) : Bool :=
  c = '\n' || c = '\r' || c = '\u2028' || c = '\u2029'

/-- JavaScript `String.prototype.trim()`: strip leading and trailing
whitespace. -/
def jsTrim (s : String) : String :=
  String.mk (((s.data.dropWhile isJsWs).reverse.dropWhile isJsWs).reverse)

/-- Strict equality `v === s` between a JavaScript value and a string
constant (source lines 122-125 compare `username`/`password` with `!==`). -/
def jsStrictEqStr (v : JSValue) (s : String) : Bool :=
  match v with
  | .str t => t = s
  | _ => false

/-- A news item as stored in the cache and in `data.json`'s `news` array.
The `id` field is kept as a `JSValue` because `getAllNews` explicitly
handles entries whose id is missing or falsy. -/
structure NewsItem where
  id : JSValue
  text : String
  source : String
  imageUrl : String
  createdAt : Int
deriving DecidableEq, Repr

/-- States of the durable store `data.json` as observed by
`readNewsFromFile`: the file may be missing, unreadable, not valid JSON,
JSON whose `news` field is not an array, or a document with a `news` array. -/
inductive FileContent where
  | absent
  | unreadable
  | invalidJson
  | noNewsArray
  | news (items : List NewsItem)
deriving DecidableEq, Repr

/-- Source `readNewsFromFile` (lines 15-23): read and parse `data.json`,
returning `parsed.news` when it is an array and `[]` on any failure
(missing file, read error, parse error) or when `news` is not an array. -/
def readNewsFromFile : FileContent → List NewsItem
  | .news items => items
  | _ => []

/-- The dedup loop of `getAllNews` (lines 29-35): walk the concatenated
list, skip entries whose id is falsy or already seen, keep the rest in
order.  `seen` models the `Set` of ids. -/
def dedupById : List JSValue → List NewsItem → List NewsItem
  | _, [] => []
  | seen, n :: rest =>
    if ¬ n.id.truthy ∨ n.id ∈ seen then dedupById seen rest
    else n :: dedupById (n.id :: seen) rest

/-- The sort relation of `merged.sort((a, b) => new Date(b.createdAt) - new
Date(a.createdAt))`: descending `createdAt`. -/
def newsLE (a b : NewsItem) : Prop := b.createdAt ≤ a.createdAt

instance : DecidableRel newsLE := fun a b =>
  inferInstanceAs (Decidable (b.createdAt ≤ a.createdAt))

instance : IsTotal NewsItem newsLE := ⟨fun a b => Int.le_total b.createdAt a.createdAt⟩

instance : IsTrans NewsItem newsLE := ⟨fun _ _ _ hab hbc => le_trans hbc hab⟩

/-- Source `getAllNews` (lines 25-39): read the file news, take the cache
(empty when `runtimeNewsCache` is not an array), concatenate cache first,
deduplicate by id dropping falsy ids, and sort by `createdAt` descending
with the runtime's stable sort. -/
def getAllNews (file : FileContent) (cache : Option (List NewsItem)) : List NewsItem :=
  List.insertionSort newsLE (dedupById [] (cache.getD [] ++ readNewsFromFile file))

/-- Match of `auth.match(/^Bearer\s+(.+)$/i)` (source line 76): the header
must start with case-insensitive `bearer`, followed by at least one
whitespace character, followed by a nonempty token free of line
terminators; the `\s+` is greedy, so the captured token starts after the
longest whitespace run that still leaves a valid capture. -/
def bearerCapture (s : String) : Option String :=
  let cs := s.data
  if (cs.take 6).map Char.toLower = "bearer".data then
    let rest := cs.drop 6
    let valid : Nat → Bool := fun k =>
      decide (1 ≤ k) && decide (k < rest.length) &&
        (rest.take k).all isJsWs && (rest.drop k).all (fun c => !(isLineTerm c))
    match ((List.range (rest.length + 1)).filter valid).getLast? with
    | some k => some (String.mk (rest.drop k))
    | none => none
  else none

/-- The claim set embedded in a token: `{sub, role}`. -/
structure Claims where
  sub : String
  role : String
deriving DecidableEq, Repr

/-- A decoded JWT as the external `jsonwebtoken` library sees it: its claim
set, the secret it was signed with, and its expiry instant. -/
structure SignedToken where
  claims : Claims
  sigSecret : String
  exp : Int
deriving DecidableEq, Repr

/-- Modelled from the spec: `jsonwebtoken`'s `jwt.verify(token, secret)`
(an external library, not repository code).  Per the spec's Token
Authenticator contract, verification succeeds exactly when the token
decodes, was signed with the issuance secret, and is unexpired; any
failure (bad signature, expired, malformed) is an exception, modelled as
`none`.  `decode` abstracts the wire format. -/
def jwtVerify (decode : String → Option SignedToken) (secret : String) (now : Int)
    (token : String) : Option Claims :=
  match decode token with
  | none => none
  | some t => if t.sigSecret = secret ∧ now < t.exp then some t.claims else none

/-- Modelled from the spec: `jwt.sign({sub, role:"admin"}, secret,
{expiresIn:"7d"})` (source line 127) produces a token whose claims carry the
subject and role and which expires 7 days after issuance. -/
def jwtSign (sub : String) (secret : String) (now : Int) : SignedToken :=
  ⟨⟨sub, "admin"⟩, secret, now + 7 * 24 * 60 * 60 * 1000⟩

/-- Source `makeId` (lines 86-88): `"n_" + random base36 + time base36`;
the random and time components are environment inputs. -/
def makeId (randPart : String) (timePart : String) : String :=
  "n_" ++ randPart ++ timePart

/-- The field normalization of the add handler (source lines 156-158):
`String(body?.x || "").trim()` — a falsy field value is replaced by `""`
before coercion, a truthy one is coerced with `String(...)`, then the
result is trimmed. -/
def normField (v : JSValue) : String :=
  jsTrim (JSValue.toJsString (if v.truthy then v else JSValue.str ""))

/-- Modelled from the spec (for comparison with `normField`): "source and
imageUrl default to empty string and are trimmed; any non-string value is
coerced to its string form before trimming" — an absent field defaults to
the empty string and every present value is coerced with its string form,
then trimmed. -/
def specNormField (v : JSValue) : String :=
  match v with
  | .undefined => ""
  | w => jsTrim w.toJsString

/-- The parsed request body as the handler reads it: the (optional) fields
it ever accesses. -/
structure JSObj where
  text : JSValue := .undefined
  source : JSValue := .undefined
  imageUrl : JSValue := .undefined
  username : JSValue := .undefined
  password : JSValue := .undefined
deriving DecidableEq, Repr

/-- Result of `JSON.parse`: a top-level object, or a primitive (null,
number, string, boolean). -/
inductive JSON where
  | prim (v : JSValue)
  | obj (o : JSObj)
deriving DecidableEq, Repr

/-- Optional-chaining field access `body?.text`: `undefined` unless the
parsed body is an object with the field (primitives have none of these
properties; `null`/`undefined` short-circuit to `undefined`). -/
def JSON.getText : JSON → JSValue
  | .obj o => o.text
  | .prim _ => .undefined

/-- Optional-chaining field access `body?.source`. -/
def JSON.getSource : JSON → JSValue
  | .obj o => o.source
  | .prim _ => .undefined

/-- Optional-chaining field access `body?.imageUrl`. -/
def JSON.getImageUrl : JSON → JSValue
  | .obj o => o.imageUrl
  | .prim _ => .undefined

/-- Destructuring `const {username} = body || {}`: `undefined` unless the
body is an object (a falsy body is replaced by `{}`, and destructuring a
primitive yields `undefined` fields). -/
def JSON.getUsername : JSON → JSValue
  | .obj o => o.username
  | .prim _ => .undefined

/-- Destructuring `const {password} = body || {}`. -/
def JSON.getPassword : JSON → JSValue
  | .obj o => o.password
  | .prim _ => .undefined

/-- Outcome of `readBody(req)`: a stream error (rejected promise) or the
accumulated body text (absent body resolves to `""`). -/
inductive BodyRead where
  | readErr
  | readOk (text : String)
deriving DecidableEq, Repr

/-- An incoming HTTP request as the handler consumes it. -/
structure Request where
  method : String
  url : String
  authorization : Option String
  body : BodyRead
deriving DecidableEq, Repr

/-- Response payloads the handler produces (each is a JSON document with a
top-level `ok` boolean; `empty` is the bare `res.end()` of the OPTIONS
branch). -/
inductive ResBody where
  | empty
  | err (msg : String)
  | health
  | token (t : SignedToken)
  | newsList (items : List NewsItem)
  | created (item : NewsItem)
deriving DecidableEq, Repr

/-- An HTTP response: status code and payload. -/
structure Response where
  status : Nat
  body : ResBody
deriving DecidableEq, Repr

/-- Mutable state the handler touches: the module-level `runtimeNewsCache`
(null until first initialized) and the durable `data.json`. -/
structure ApiState where
  cache : Option (List NewsItem)
  file : FileContent
deriving DecidableEq, Repr

/-- Environment of a single handler invocation: configuration (secret and
admin credentials with their source defaults), the external collaborators
(`JSON.parse`, the JWT decoder), the clock, the random/time components
consumed by `makeId`, and whether the `fs.writeFileSync` of the durable
store succeeds. -/
structure Env where
  secret : String := "dev_secret_change_me"
  adminUser : String := "admin"
  adminPassword : String := "password"
  jsonParse : String → Option JSON
  decode : String → Option SignedToken
  now : Int
  randPart : String
  timePart : String
  writeOk : Bool

/-- Source `verifyJWT` (lines 74-84): default a missing header to `""`,
match the bearer regex, and verify the captured token; any failure yields
`none` (the source's `{ok:false}`). -/
def verifyJWT (env : Env) (authHeader : Option String) : Option Claims :=
  match bearerCapture (authHeader.getD "") with
  | none => none
  | some token => jwtVerify env.decode env.secret env.now token

/-- Pathname extraction `new URL(req.url, "http://localhost").pathname`,
modelled for origin-form request targets: the part before any query or
fragment. -/
def pathOf (url : String) : String :=
  String.mk (url.data.takeWhile (fun c => c ≠ '?' ∧ c ≠ '#'))

/-- Body parsing shared by the login and add-news branches (source lines
115-120 and 149-154): `JSON.parse(bodyText || "{}")`, so an empty body
text parses the empty-object literal. -/
def parseBody (env : Env) (bodyText : String) : Option JSON :=
  env.jsonParse (if bodyText = "" then "\x7b\x7d" else bodyText)

/-- Source `handler` (lines 90-185): CORS preflight, then routing on
pathname and method over health, login, public news list, authenticated
news add, and the not-found fallback.  Returns the response and the
updated state. -/
def handler (env : Env) (req : Request) (st : ApiState) : Response × ApiState :=
  if req.method = "OPTIONS" then
    (⟨204, .empty⟩, st)
  else
    let pathname := pathOf req.url
    if pathname = "/api/health" ∧ req.method = "GET" then
      (⟨200, .health⟩, st)
    else if pathname = "/api/login" ∧ req.method = "POST" then
      match req.body with
      | .readErr => (⟨400, .err "Failed to read body"⟩, st)
      | .readOk bodyText =>
        match parseBody env bodyText with
        | none => (⟨400, .err "Body must be JSON"⟩, st)
        | some body =>
          if ¬ (jsStrictEqStr body.getUsername env.adminUser)
              ∨ ¬ (jsStrictEqStr body.getPassword env.adminPassword) then
            (⟨401, .err "Invalid credentials"⟩, st)
          else
            (⟨200, .token (jwtSign env.adminUser env.secret env.now)⟩, st)
    else if pathname = "/api/news" ∧ req.method = "GET" then
      (⟨200, .newsList (getAllNews st.file st.cache)⟩, st)
    else if pathname = "/api/news" ∧ req.method = "POST" then
      match verifyJWT env req.authorization with
      | none => (⟨401, .err "Unauthorized"⟩, st)
      | some _ =>
        match req.body with
        | .readErr => (⟨400, .err "Failed to read body"⟩, st)
        | .readOk bodyText =>
          match parseBody env bodyText with
          | none => (⟨400, .err "Body must be JSON"⟩, st)
          | some body =>
            let text := normField body.getText
            let source := normField body.getSource
            let imageUrl := normField body.getImageUrl
            if text = "" then
              (⟨400, .err "text is required"⟩, st)
            else
              let item : NewsItem :=
                ⟨.str (makeId env.randPart env.timePart), text, source, imageUrl, env.now⟩
              let cache' := item :: st.cache.getD []
              let file' :=
                if env.writeOk then FileContent.news (item :: readNewsFromFile st.file)
                else st.file
              (⟨201, .created item⟩, ⟨some cache', file'⟩)
    else
      (⟨404, .err "Not found"⟩, st)

/-- The news item constructed by the add branch (source lines 162-168) from
the normalized fields, the generated id and the current instant. -/
def newItem (env : Env) (body : JSON) : NewsItem :=
  ⟨.str (makeId env.randPart env.timePart), normField body.getText,
   normField body.getSource, normField body.getImageUrl, env.now⟩

/-- Descending order on integers, the key order of the news sort. -/
def intGE (a b : Int) : Prop := b ≤ a

instance : IsAntisymm Int intGE := ⟨fun _ _ h1 h2 => le_antisymm h2 h1⟩

/-- A concrete environment in which every external collaborator fails:
`JSON.parse` always throws and no token decodes. -/
def env0 : Env :=
  { jsonParse := fun _ => none, decode := fun _ => none,
    now := 0, randPart := "", timePart := "", writeOk := false }

/-- A concrete environment with a working admin token and a `JSON.parse`
that recognizes the empty object literal and one body carrying
`text = "hello"`. -/
def envOk : Env :=
  { jsonParse := fun s =>
      if s = "\x7b\x7d" then some (.obj {})
      else if s = "TB" then some (.obj { text := JSValue.str "hello" })
      else none,
    decode := fun _ => some ⟨⟨"admin", "admin"⟩, "dev_secret_change_me", 1⟩,
    now := 0, randPart := "r", timePart := "t", writeOk := true }

/-- Every item surviving the dedup walk came from the input and has a
truthy id. -/
theorem mem_dedupById (l : List NewsItem) :
    ∀ seen n, n ∈ dedupById seen l → n ∈ l ∧ n.id.truthy = true := by
  induction l with
  | nil => intro seen n h; simp [dedupById] at h
  | cons a rest ih =>
    intro seen n h
    simp only [dedupById] at h
    split at h
    · obtain ⟨h1, h2⟩ := ih seen n h
      exact ⟨List.mem_cons_of_mem _ h1, h2⟩
    · rename_i hcond
      push_neg at hcond
      rcases List.mem_cons.mp h with rfl | h2
      · exact ⟨List.mem_cons_self _ _, by simpa using hcond.1⟩
      · obtain ⟨h1, h2⟩ := ih _ n h2
        exact ⟨List.mem_cons_of_mem _ h1, h2⟩

/-- Once an id is in `seen`, no item carrying it survives the dedup walk. -/
theorem filter_dedupById_of_mem_seen (X : JSValue) (l : List NewsItem) :
    ∀ seen, X ∈ seen →
      (dedupById seen l).filter (fun m => decide (m.id = X)) = [] := by
  induction l with
  | nil => intro seen hX; simp [dedupById]
  | cons a rest ih =>
    intro seen hX
    simp only [dedupById]
    split
    · exact ih seen hX
    · rename_i hcond
      push_neg at hcond
      have haX : ¬ (a.id = X) := fun h => hcond.2 (h ▸ hX)
      simp only [List.filter_cons, decide_eq_true_eq, if_neg haX]
      exact ih (a.id :: seen) (List.mem_cons_of_mem _ hX)

/-- The dedup walk keeps exactly the first occurrence of a truthy unseen
id: filtering its output by that id yields the `find?` witness alone. -/
theorem filter_dedupById_find (X : JSValue) (hX : X.truthy = true) (l : List NewsItem) :
    ∀ seen, X ∉ seen → ∀ c, l.find? (fun m => decide (m.id = X)) = some c →
      (dedupById seen l).filter (fun m => decide (m.id = X)) = [c] := by
  induction l with
  | nil => intro seen hs c hf; simp [List.find?] at hf
  | cons a rest ih =>
    intro seen hs c hf
    by_cases haX : a.id = X
    · have hc : c = a := by
        rw [List.find?_cons_of_pos _ (by simpa using haX)] at hf
        exact (Option.some_inj.mp hf).symm
      have hkeep : ¬ (¬ a.id.truthy = true ∨ a.id ∈ seen) := by
        push_neg
        exact ⟨by simp [haX, hX], by rwa [haX]⟩
      simp only [dedupById, if_neg hkeep]
      simp only [List.filter_cons, decide_eq_true_eq, if_pos haX]
      rw [filter_dedupById_of_mem_seen X rest (a.id :: seen)
        (by rw [haX]; exact List.mem_cons_self _ _), hc]
    · have hf' : rest.find? (fun m => decide (m.id = X)) = some c := by
        rwa [List.find?_cons_of_neg _ (by simpa using haX)] at hf
      simp only [dedupById]
      split
      · exact ih seen hs c hf'
      · simp only [List.filter_cons, decide_eq_true_eq, if_neg haX]
        refine ih (a.id :: seen) ?_ c hf'
        intro hmem
        rcases List.mem_cons.mp hmem with h | h
        · exact haX h.symm
        · exact hs h

/-- Filtering commutes with the final sort up to permutation, so a
singleton filter of the deduplicated list survives as a singleton filter
of the sorted output. -/
theorem filter_insertionSort_singleton (l : List NewsItem) (p : NewsItem → Bool)
    (c : NewsItem) (h : l.filter p = [c]) :
    (List.insertionSort newsLE l).filter p = [c] :=
  List.perm_singleton.mp (h ▸ (List.perm_insertionSort newsLE l).filter p)

/-- Core merge property of `getAllNews`: if the first cache entry with a
truthy id `X` is `c`, the merged, deduplicated, sorted output contains
exactly `c` among entries with id `X`, whatever the durable store holds. -/
theorem filter_getAllNews (file : FileContent) (cs : List NewsItem) (X : JSValue)
    (c : NewsItem) (hX : X.truthy = true)
    (hfind : cs.find? (fun m => decide (m.id = X)) = some c) :
    (getAllNews file (some cs)).filter (fun m => decide (m.id = X)) = [c] := by
  have hfind2 : (cs ++ readNewsFromFile file).find? (fun m => decide (m.id = X)) = some c := by
    rw [List.find?_append, hfind, Option.or]
  have hded := filter_dedupById_find X hX (cs ++ readNewsFromFile file) []
    (by simp) c hfind2
  have : (some cs).getD [] = cs := rfl
  rw [getAllNews, this]
  exact filter_insertionSort_singleton _ _ _ hded

/-- Every item in the merged view has a truthy id. -/
theorem mem_getAllNews_truthy (file : FileContent) (cache : Option (List NewsItem)) :
    ∀ n ∈ getAllNews file cache, n.id.truthy = true := by
  intro n hn
  have hmem : n ∈ dedupById [] (cache.getD [] ++ readNewsFromFile file) :=
    ((List.perm_insertionSort newsLE _).mem_iff).mp hn
  exact (mem_dedupById _ [] n hmem).2

/-- Reduction of the handler on the add-news route: the POST `/api/news`
branch is the auth gate, then body read, then JSON parse, then text
validation, then construction and the cache/file writes. -/
theorem handler_post_news (env : Env) (auth : Option String) (st : ApiState) (b : BodyRead) :
    handler env ⟨"POST", "/api/news", auth, b⟩ st =
      match verifyJWT env auth with
      | none => (⟨401, .err "Unauthorized"⟩, st)
      | some _ =>
        match b with
        | .readErr => (⟨400, .err "Failed to read body"⟩, st)
        | .readOk bodyText =>
          match parseBody env bodyText with
          | none => (⟨400, .err "Body must be JSON"⟩, st)
          | some body =>
            if normField body.getText = "" then (⟨400, .err "text is required"⟩, st)
            else
              (⟨201, .created (newItem env body)⟩,
               ⟨some (newItem env body :: st.cache.getD []),
                if env.writeOk then FileContent.news (newItem env body :: readNewsFromFile st.file)
                else st.file⟩) := by
  rfl

/-- The response component of the handler never depends on whether the
durable write succeeds. -/
theorem handler_resp_indep_writeOk (env : Env) (b : Bool) (req : Request) (st : ApiState) :
    (handler { env with writeOk := b } req st).1 = (handler env req st).1 := by
  unfold handler verifyJWT parseBody
  dsimp only
  repeat' split <;> try rfl

/-- A list sorted by descending `createdAt` that is a permutation of three
items with strictly decreasing timestamps is exactly that triple. -/
theorem sorted_desc_triple (p q r : NewsItem) (l : List NewsItem)
    (hperm : l.Perm [p, q, r]) (hsort : l.Sorted newsLE)
    (hqp : q.createdAt < p.createdAt) (hrq : r.createdAt < q.createdAt) :
    l = [p, q, r] := by
  have hlen : l.length = 3 := by simpa using hperm.length_eq
  obtain ⟨u, v, w, rfl⟩ := List.length_eq_three.mp hlen
  have h1 : newsLE u v := List.rel_of_sorted_cons hsort v (by simp)
  have h2 : newsLE u w := List.rel_of_sorted_cons hsort w (by simp)
  have h3 : newsLE v w := List.rel_of_sorted_cons hsort.of_cons w (by simp)
  simp only [newsLE] at h1 h2 h3
  have hs1 : List.Sorted intGE [u.createdAt, v.createdAt, w.createdAt] := by
    simp only [List.sorted_cons, List.mem_cons, List.not_mem_nil, intGE]
    constructor
    · rintro b (rfl | rfl | h)
      · exact h1
      · exact h2
      · simp at h
    constructor
    · rintro b (rfl | h)
      · exact h3
      · simp at h
    constructor
    · rintro b h
      simp at h
    · exact List.sorted_nil
  have hs2 : List.Sorted intGE [p.createdAt, q.createdAt, r.createdAt] := by
    simp only [List.sorted_cons, List.mem_cons, List.not_mem_nil, intGE]
    constructor
    · rintro b (rfl | rfl | h)
      · omega
      · omega
      · simp at h
    constructor
    · rintro b (rfl | h)
      · omega
      · simp at h
    constructor
    · rintro b h
      simp at h
    · exact List.sorted_nil
  have hmap : [u.createdAt, v.createdAt, w.createdAt] = [p.createdAt, q.createdAt, r.createdAt] := by
    refine List.eq_of_perm_of_sorted ?_ hs1 hs2
    simpa using hperm.map NewsItem.createdAt
  obtain ⟨e1, e2, e3⟩ : u.createdAt = p.createdAt ∧ v.createdAt = q.createdAt
      ∧ w.createdAt = r.createdAt := by simpa using hmap
  have hu : u ∈ [p, q, r] := hperm.subset (by simp)
  have hv : v ∈ [p, q, r] := hperm.subset (by simp)
  have hw : w ∈ [p, q, r] := hperm.subset (by simp)
  have hup : u = p := by
    rcases (by simpa using hu : u = p ∨ u = q ∨ u = r) with h | h | h
    · exact h
    · rw [h] at e1; omega
    · rw [h] at e1; omega
  have hvq : v = q := by
    rcases (by simpa using hv : v = p ∨ v = q ∨ v = r) with h | h | h
    · rw [h] at e2; omega
    · exact h
    · rw [h] at e2; omega
  have hwr : w = r := by
    rcases (by simpa using hw : w = p ∨ w = q ∨ w = r) with h | h | h
    · rw [h] at e3; omega
    · rw [h] at e3; omega
    · exact h
  rw [hup, hvq, hwr]

/-- C1: for every state of the cache and the durable store, when an item
with some id `X` exists in both, `listAll` (= `getAllNews`) returns the
cache's copy of `X` exactly once and the durable store's copy is
discarded: the merge walks cache entries before file entries, keeps only
the first occurrence of each id, and drops any entry whose id is missing
or falsy. -/
theorem C1_cache_wins (fs cs : List NewsItem) (X : JSValue) (c : NewsItem)
    (hX : X.truthy = true)
    (hcache : cs.find? (fun m => decide (m.id = X)) = some c)
    (hfile : ∃ f ∈ fs, f.id = X) :
    (getAllNews (.news fs) (some cs)).filter (fun m => decide (m.id = X)) = [c]
    ∧ c ∈ cs ∧ c.id = X
    ∧ ∀ n ∈ getAllNews (.news fs) (some cs), n.id.truthy = true := by
  refine ⟨filter_getAllNews _ _ _ _ hX hcache, ?_, ?_, mem_getAllNews_truthy _ _⟩
  · exact List.mem_of_find?_eq_some hcache
  · simpa using List.find?_some hcache

/-- C1 witness: a concrete state where id `"a"` lives in both stores with
different field values; the merged view keeps the cache's copy alone. -/
theorem C1_cache_wins_witness :
    (getAllNews (.news [⟨.str "a", "filed", "", "", 3⟩])
        (some [⟨.str "a", "cached", "", "", 5⟩])).filter
      (fun m => decide (m.id = JSValue.str "a")) = [⟨.str "a", "cached", "", "", 5⟩] :=
  (C1_cache_wins [⟨.str "a", "filed", "", "", 3⟩] [⟨.str "a", "cached", "", "", 5⟩]
    (.str "a") ⟨.str "a", "cached", "", "", 5⟩ (by decide) (by decide)
    ⟨⟨.str "a", "filed", "", "", 3⟩, by decide, by decide⟩).1

/-- C2: for every state of the two stores the merged view is sorted by
`createdAt` descending, and whenever the view consists of three items with
strictly increasing timestamps T1 < T2 < T3 it is exactly the sequence
T3, T2, T1. -/
theorem C2_ordering :
    (∀ file cache, (getAllNews file cache).Sorted newsLE)
    ∧ (∀ file cache (a1 a2 a3 : NewsItem),
        a1.createdAt < a2.createdAt → a2.createdAt < a3.createdAt →
        (getAllNews file cache).Perm [a1, a2, a3] →
        getAllNews file cache = [a3, a2, a1]) := by
  constructor
  · intro file cache
    exact List.sorted_insertionSort newsLE _
  · intro file cache a1 a2 a3 h12 h23 hperm
    have hswap : [a1, a2, a3].Perm [a3, a2, a1] := by
      simpa using (List.reverse_perm [a1, a2, a3]).symm
    exact sorted_desc_triple a3 a2 a1 _ (hperm.trans hswap)
      (List.sorted_insertionSort newsLE _) h23 h12

/-- C2 witness: three concrete items with timestamps 1 < 2 < 3, cached out
of order, listed newest-first. -/
theorem C2_ordering_witness :
    getAllNews (.news []) (some [⟨.str "a", "x", "", "", 1⟩, ⟨.str "c", "z", "", "", 3⟩,
        ⟨.str "b", "y", "", "", 2⟩])
      = [⟨.str "c", "z", "", "", 3⟩, ⟨.str "b", "y", "", "", 2⟩, ⟨.str "a", "x", "", "", 1⟩] :=
  C2_ordering.2 (.news []) (some [⟨.str "a", "x", "", "", 1⟩, ⟨.str "c", "z", "", "", 3⟩,
      ⟨.str "b", "y", "", "", 2⟩])
    ⟨.str "a", "x", "", "", 1⟩ ⟨.str "b", "y", "", "", 2⟩ ⟨.str "c", "z", "", "", 3⟩
    (by decide) (by decide) (by decide)

/-- Reduction of the handler on the login route (source lines 107-129). -/
theorem handler_login (env : Env) (auth : Option String) (st : ApiState) (b : BodyRead) :
    handler env ⟨"POST", "/api/login", auth, b⟩ st =
      match b with
      | .readErr => (⟨400, .err "Failed to read body"⟩, st)
      | .readOk bodyText =>
        match parseBody env bodyText with
        | none => (⟨400, .err "Body must be JSON"⟩, st)
        | some body =>
          if ¬ (jsStrictEqStr body.getUsername env.adminUser)
              ∨ ¬ (jsStrictEqStr body.getPassword env.adminPassword) then
            (⟨401, .err "Invalid credentials"⟩, st)
          else
            (⟨200, .token (jwtSign env.adminUser env.secret env.now)⟩, st) := rfl

/-- Generated ids are never the empty string (they start with the literal
`n_`), hence always truthy. -/
theorem makeId_ne_empty (r t : String) : makeId r t ≠ "" := by
  intro h
  have hlen : (makeId r t).length = 0 := by rw [h]; rfl
  rw [makeId, String.length_append, String.length_append] at hlen
  have : ("n_" : String).length = 2 := rfl
  omega

/-- On the add route with a valid token, a parsed body and nonempty
normalized text, the handler returns 201 with the constructed item,
prepends it to the cache, and prepends it to the durable document exactly
when the write succeeds. -/
theorem handler_post_news_valid (env : Env) (auth : Option String) (st : ApiState)
    (bodyText : String) (body : JSON) (cl : Claims)
    (hauth : verifyJWT env auth = some cl)
    (hparse : parseBody env bodyText = some body)
    (hvalid : normField body.getText ≠ "") :
    handler env ⟨"POST", "/api/news", auth, .readOk bodyText⟩ st =
      (⟨201, .created (newItem env body)⟩,
       ⟨some (newItem env body :: st.cache.getD []),
        if env.writeOk then FileContent.news (newItem env body :: readNewsFromFile st.file)
        else st.file⟩) := by
  rw [handler_post_news]
  simp only [hauth, hparse]
  rw [if_neg hvalid]

/-- C3: for every valid input (text nonempty after normalization), a
successful add followed immediately by `listAll` yields a sequence
containing exactly one item carrying the freshly generated id — an id not
equal to that of any previously existing item — and that item holds the
normalized text, source and imageUrl of the request. -/
theorem C3_add_then_list (env : Env) (auth : Option String) (st : ApiState)
    (bodyText : String) (body : JSON) (cl : Claims)
    (hauth : verifyJWT env auth = some cl)
    (hparse : parseBody env bodyText = some body)
    (hvalid : normField body.getText ≠ "")
    (hfresh : ∀ n ∈ st.cache.getD [] ++ readNewsFromFile st.file,
        n.id ≠ .str (makeId env.randPart env.timePart)) :
    (handler env ⟨"POST", "/api/news", auth, .readOk bodyText⟩ st).1
      = ⟨201, .created (newItem env body)⟩
    ∧ (getAllNews (handler env ⟨"POST", "/api/news", auth, .readOk bodyText⟩ st).2.file
        (handler env ⟨"POST", "/api/news", auth, .readOk bodyText⟩ st).2.cache).filter
        (fun m => decide (m.id = .str (makeId env.randPart env.timePart)))
      = [newItem env body] := by
  rw [handler_post_news_valid env auth st bodyText body cl hauth hparse hvalid]
  refine ⟨rfl, ?_⟩
  apply filter_getAllNews
  · simpa [JSValue.truthy] using makeId_ne_empty env.randPart env.timePart
  · exact List.find?_cons_of_pos _ (by simp [newItem])

/-- C3 witness: against the empty state, adding `text = "hello"` with a
valid token yields 201 and the merged view contains the new item exactly
once under its fresh id. -/
theorem C3_add_then_list_witness :
    (handler envOk ⟨"POST", "/api/news", some "Bearer t", .readOk "TB"⟩ ⟨none, .absent⟩).1
      = ⟨201, .created (newItem envOk (.obj { text := JSValue.str "hello" }))⟩
    ∧ (getAllNews (handler envOk ⟨"POST", "/api/news", some "Bearer t", .readOk "TB"⟩
          ⟨none, .absent⟩).2.file
        (handler envOk ⟨"POST", "/api/news", some "Bearer t", .readOk "TB"⟩
          ⟨none, .absent⟩).2.cache).filter
        (fun m => decide (m.id = .str (makeId envOk.randPart envOk.timePart)))
      = [newItem envOk (.obj { text := JSValue.str "hello" })] :=
  C3_add_then_list envOk (some "Bearer t") ⟨none, .absent⟩ "TB"
    (.obj { text := JSValue.str "hello" }) ⟨"admin", "admin"⟩
    (by decide) (by decide) (by decide) (by simp [readNewsFromFile])

/-- C4: with a valid token and a parsed body, the add fails with 400
`text is required` exactly when the normalized text is empty, this is the
only validation failure on the route, and on failure neither the cache
nor the durable store changes. -/
theorem C4_empty_text (env : Env) (auth : Option String) (st : ApiState)
    (bodyText : String) (body : JSON) (cl : Claims)
    (hauth : verifyJWT env auth = some cl)
    (hparse : parseBody env bodyText = some body) :
    ((handler env ⟨"POST", "/api/news", auth, .readOk bodyText⟩ st).1.status = 400
      ↔ normField body.getText = "")
    ∧ (normField body.getText = "" →
        handler env ⟨"POST", "/api/news", auth, .readOk bodyText⟩ st
          = (⟨400, .err "text is required"⟩, st)) := by
  rw [handler_post_news]
  simp only [hauth]
  by_cases hv : normField body.getText = ""
  · simp [hparse, hv]
  · simp [hparse, hv]

/-- C4 witness: an authenticated add whose body parses to the empty object
(so `text` trims to empty) is rejected with 400 and leaves the state
untouched. -/
theorem C4_empty_text_witness :
    ((handler envOk ⟨"POST", "/api/news", some "Bearer t", .readOk "\x7b\x7d"⟩
        ⟨none, .absent⟩).1.status = 400 ↔ normField (JSON.obj {}).getText = "")
    ∧ (normField (JSON.obj {}).getText = "" →
        handler envOk ⟨"POST", "/api/news", some "Bearer t", .readOk "\x7b\x7d"⟩ ⟨none, .absent⟩
          = (⟨400, .err "text is required"⟩, ⟨none, .absent⟩)) :=
  C4_empty_text envOk (some "Bearer t") ⟨none, .absent⟩ "\x7b\x7d" (.obj {})
    ⟨"admin", "admin"⟩ (by decide) (by decide)

/-- C5: durable-store I/O failures are invisible to callers — every
unreadable or malformed durable state reads as the empty sequence, the
handler's response never depends on whether the durable write succeeds,
and a valid add with a failing write still returns 201 with the item and
leaves the durable store as it was. -/
theorem C5_io_absorbed :
    (readNewsFromFile .absent = [] ∧ readNewsFromFile .unreadable = []
      ∧ readNewsFromFile .invalidJson = [] ∧ readNewsFromFile .noNewsArray = [])
    ∧ (∀ env b req st, (handler { env with writeOk := b } req st).1 = (handler env req st).1)
    ∧ (∀ env auth st bodyText body cl, verifyJWT env auth = some cl →
        parseBody env bodyText = some body → normField body.getText ≠ "" →
        (handler { env with writeOk := false }
            ⟨"POST", "/api/news", auth, .readOk bodyText⟩ st).1
          = ⟨201, .created (newItem env body)⟩
        ∧ (handler { env with writeOk := false }
            ⟨"POST", "/api/news", auth, .readOk bodyText⟩ st).2.file = st.file) := by
  refine ⟨⟨rfl, rfl, rfl, rfl⟩, handler_resp_indep_writeOk, ?_⟩
  intro env auth st bodyText body cl hauth hparse hvalid
  have hred := handler_post_news_valid { env with writeOk := false } auth st bodyText body cl
    hauth hparse hvalid
  rw [hred]
  exact ⟨rfl, rfl⟩

/-- C5 witness: with the durable write failing, a valid add still returns
201 with the constructed item and the durable store stays absent. -/
theorem C5_io_absorbed_witness :
    (handler { envOk with writeOk := false }
        ⟨"POST", "/api/news", some "Bearer t", .readOk "TB"⟩ ⟨none, .absent⟩).1
      = ⟨201, .created (newItem envOk (.obj { text := JSValue.str "hello" }))⟩
    ∧ (handler { envOk with writeOk := false }
        ⟨"POST", "/api/news", some "Bearer t", .readOk "TB"⟩ ⟨none, .absent⟩).2.file
      = .absent :=
  C5_io_absorbed.2.2 envOk (some "Bearer t") ⟨none, .absent⟩ "TB"
    (.obj { text := JSValue.str "hello" }) ⟨"admin", "admin"⟩
    (by decide) (by decide) (by decide)

/-- C6 counterexample: the claim says any non-string value is coerced to
its string form before trimming, so the numeric text value `0` should
normalize to `"0"`; the code's normalization (`String(body?.text || "")`)
turns every falsy value — including the number `0` — into the empty
string instead. -/
theorem C6_counterexample :
    specNormField (JSValue.num 0) = "0" ∧ normField (JSValue.num 0) = ""
    ∧ normField (JSValue.num 0) ≠ specNormField (JSValue.num 0) := by decide

/-- C6 amended: the accepted fields are validated after a normalization in
which falsy values (missing field, `null`, `false`, `0`, `""`) default to
the empty string and truthy values — including truthy non-strings — are
coerced to their string form, then trimmed; the add handler applies this
normalization to `text`, `source` and `imageUrl`. -/
theorem C6_normalization :
    (∀ v : JSValue, normField v = if v.truthy then jsTrim v.toJsString else "")
    ∧ (∀ env auth st bodyText body cl, verifyJWT env auth = some cl →
        parseBody env bodyText = some body → normField body.getText ≠ "" →
        (handler env ⟨"POST", "/api/news", auth, .readOk bodyText⟩ st).1
          = ⟨201, .created ⟨.str (makeId env.randPart env.timePart), normField body.getText,
              normField body.getSource, normField body.getImageUrl, env.now⟩⟩) := by
  constructor
  · intro v
    cases hv : v.truthy <;> simp [normField, hv] <;> rfl
  · intro env auth st bodyText body cl hauth hparse hvalid
    rw [handler_post_news_valid env auth st bodyText body cl hauth hparse hvalid]
    rfl

/-- C6 witness: the accepted add of `text = "hello"` produces exactly the
normalized fields. -/
theorem C6_normalization_witness :
    (handler envOk ⟨"POST", "/api/news", some "Bearer t", .readOk "TB"⟩ ⟨none, .absent⟩).1
      = ⟨201, .created ⟨.str (makeId envOk.randPart envOk.timePart),
          normField (JSON.obj { text := JSValue.str "hello" }).getText,
          normField (JSON.obj { text := JSValue.str "hello" }).getSource,
          normField (JSON.obj { text := JSValue.str "hello" }).getImageUrl, envOk.now⟩⟩ :=
  C6_normalization.2 envOk (some "Bearer t") ⟨none, .absent⟩ "TB"
    (.obj { text := JSValue.str "hello" }) ⟨"admin", "admin"⟩
    (by decide) (by decide) (by decide)

/-- C7: every authentication failure on the add route — missing header,
non-bearer scheme, or a token the verifier rejects — produces the single
rejection 401 `Unauthorized`, and a token is accepted exactly when the
header matches the bearer pattern and the token decodes, carries the
issuance secret, and is unexpired. -/
theorem C7_auth_normalized :
    (∀ env st b auth, verifyJWT env auth = none →
      handler env ⟨"POST", "/api/news", auth, b⟩ st = (⟨401, .err "Unauthorized"⟩, st))
    ∧ (∀ env, verifyJWT env none = none)
    ∧ (∀ env s, bearerCapture s = none → verifyJWT env (some s) = none)
    ∧ (∀ env s tok, bearerCapture s = some tok →
        verifyJWT env (some s) = jwtVerify env.decode env.secret env.now tok)
    ∧ (∀ decode secret now t c, jwtVerify decode secret now t = some c ↔
        ∃ tk, decode t = some tk ∧ tk.sigSecret = secret ∧ now < tk.exp ∧ c = tk.claims) := by
  refine ⟨?_, ?_, ?_, ?_, ?_⟩
  · intro env st b auth h
    rw [handler_post_news]
    simp only [h]
  · intro env
    rfl
  · intro env s h
    simp [verifyJWT, h]
  · intro env s tok h
    simp [verifyJWT, h]
  · intro decode secret now t c
    cases hd : decode t with
    | none => simp [jwtVerify, hd]
    | some tk =>
      by_cases hcond : tk.sigSecret = secret ∧ now < tk.exp
      · simp only [jwtVerify, hd, if_pos hcond]
        constructor
        · intro h
          exact ⟨tk, rfl, hcond.1, hcond.2, (Option.some_inj.mp h).symm⟩
        · rintro ⟨tk2, htk, h1, h2, rfl⟩
          have he : tk = tk2 := Option.some_inj.mp htk
          rw [he]
      · simp only [jwtVerify, hd, if_neg hcond]
        constructor
        · intro h
          simp at h
        · rintro ⟨tk2, htk, h1, h2, rfl⟩
          have he : tk = tk2 := Option.some_inj.mp htk
          subst he
          exact absurd ⟨h1, h2⟩ hcond

/-- C7 witness: with no Authorization header the add route answers 401
`Unauthorized`. -/
theorem C7_auth_normalized_witness :
    handler env0 ⟨"POST", "/api/news", none, .readOk ""⟩ ⟨none, .absent⟩
      = (⟨401, .err "Unauthorized"⟩, ⟨none, .absent⟩) :=
  C7_auth_normalized.1 env0 ⟨none, .absent⟩ (.readOk "") none (by decide)

/-- C8 counterexample: the handler routes on the literal pathname
`/api/news`; a `POST /news` request without authorization is answered by
the not-found fallback (404), not by the claimed early 401. -/
theorem C8_counterexample :
    (handler env0 ⟨"POST", "/news", none, .readOk ""⟩ ⟨none, .absent⟩).1
      = ⟨404, .err "Not found"⟩
    ∧ (handler env0 ⟨"POST", "/news", none, .readOk ""⟩ ⟨none, .absent⟩).1.status ≠ 401 := by
  decide

/-- C8 amended: for every `POST /api/news` request without a valid
Authorization header, the response is 401 before any validation of the
body occurs — for any two request bodies the unauthenticated response is
identical and the state is unchanged. -/
theorem C8_unauth_ignores_body (env : Env) (st : ApiState) (auth : Option String)
    (hauth : verifyJWT env auth = none) (b1 b2 : BodyRead) :
    handler env ⟨"POST", "/api/news", auth, b1⟩ st = (⟨401, .err "Unauthorized"⟩, st)
    ∧ handler env ⟨"POST", "/api/news", auth, b1⟩ st
      = handler env ⟨"POST", "/api/news", auth, b2⟩ st := by
  have h1 : handler env ⟨"POST", "/api/news", auth, b1⟩ st
      = (⟨401, .err "Unauthorized"⟩, st) := by
    rw [handler_post_news]
    simp only [hauth]
  have h2 : handler env ⟨"POST", "/api/news", auth, b2⟩ st
      = (⟨401, .err "Unauthorized"⟩, st) := by
    rw [handler_post_news]
    simp only [hauth]
  exact ⟨h1, h1.trans h2.symm⟩

/-- C8 witness: a non-bearer scheme is rejected identically for a parsed
body and a failing body stream. -/
theorem C8_unauth_ignores_body_witness :
    handler envOk ⟨"POST", "/api/news", some "Basic x", .readOk "TB"⟩ ⟨none, .absent⟩
      = (⟨401, .err "Unauthorized"⟩, ⟨none, .absent⟩)
    ∧ handler envOk ⟨"POST", "/api/news", some "Basic x", .readOk "TB"⟩ ⟨none, .absent⟩
      = handler envOk ⟨"POST", "/api/news", some "Basic x", .readErr⟩ ⟨none, .absent⟩ :=
  C8_unauth_ignores_body envOk ⟨none, .absent⟩ (some "Basic x") (by decide)
    (.readOk "TB") .readErr

/-- C9 counterexample: the handler compares the pathname against
`/api/health`, so a `GET /health` request falls through to the not-found
fallback instead of answering 200 with the health body. -/
theorem C9_counterexample :
    handler env0 ⟨"GET", "/health", none, .readOk ""⟩ ⟨none, .absent⟩
      = (⟨404, .err "Not found"⟩, ⟨none, .absent⟩)
    ∧ (handler env0 ⟨"GET", "/health", none, .readOk ""⟩ ⟨none, .absent⟩).1.status ≠ 200 := by
  decide

/-- C9 amended: every `GET /api/health` request — with any or no
authorization and any body — answers 200 with the health body, and every
non-preflight request matching none of the four routed path/method pairs
answers 404 `Not found`. -/
theorem C9_routing :
    (∀ env st auth b, handler env ⟨"GET", "/api/health", auth, b⟩ st = (⟨200, .health⟩, st))
    ∧ (∀ env req st, req.method ≠ "OPTIONS" →
        ¬ (pathOf req.url = "/api/health" ∧ req.method = "GET") →
        ¬ (pathOf req.url = "/api/login" ∧ req.method = "POST") →
        ¬ (pathOf req.url = "/api/news" ∧ req.method = "GET") →
        ¬ (pathOf req.url = "/api/news" ∧ req.method = "POST") →
        handler env req st = (⟨404, .err "Not found"⟩, st)) := by
  constructor
  · intro env st auth b
    rfl
  · intro env req st h0 h1 h2 h3 h4
    unfold handler
    rw [if_neg h0]
    dsimp only
    rw [if_neg h1, if_neg h2, if_neg h3, if_neg h4]

/-- C9 witness: the unmatched route `GET /bogus` answers 404 `Not found`. -/
theorem C9_routing_witness :
    handler env0 ⟨"GET", "/bogus", none, .readOk ""⟩ ⟨none, .absent⟩
      = (⟨404, .err "Not found"⟩, ⟨none, .absent⟩) :=
  C9_routing.2 env0 ⟨"GET", "/bogus", none, .readOk ""⟩ ⟨none, .absent⟩
    (by decide) (by decide) (by decide) (by decide) (by decide)

/-- C10 counterexample: the routes live under `/api`, so even an
authenticated `POST /news` with an empty body is answered by the 404
fallback, not by the claimed 400 `text is required`. -/
theorem C10_counterexample :
    verifyJWT envOk (some "Bearer tok") = some ⟨"admin", "admin"⟩
    ∧ handler envOk ⟨"POST", "/news", some "Bearer tok", .readOk ""⟩ ⟨none, .absent⟩
      = (⟨404, .err "Not found"⟩, ⟨none, .absent⟩)
    ∧ (handler envOk ⟨"POST", "/news", some "Bearer tok", .readOk ""⟩
        ⟨none, .absent⟩).1.status ≠ 400 := by
  decide

/-- C10 amended: an empty body text is parsed as the empty JSON object
(`JSON.parse` is fed the literal for it), so an authenticated
`POST /api/news` with an empty body fails with 400 `text is required` —
never a parse error — and a `POST /api/login` with an empty body fails
with 401 `Invalid credentials`. -/
theorem C10_empty_body (env : Env) (st : ApiState) (auth : Option String) (cl : Claims)
    (hauth : verifyJWT env auth = some cl)
    (hpe : env.jsonParse "\x7b\x7d" = some (.obj {})) :
    handler env ⟨"POST", "/api/news", auth, .readOk ""⟩ st
      = (⟨400, .err "text is required"⟩, st)
    ∧ handler env ⟨"POST", "/api/login", auth, .readOk ""⟩ st
      = (⟨401, .err "Invalid credentials"⟩, st) := by
  have hp : parseBody env "" = some (.obj {}) := by simp [parseBody, hpe]
  constructor
  · rw [handler_post_news]
    simp only [hauth, hp]
    rfl
  · rw [handler_login]
    simp only [hp]
    rfl

/-- C10 witness: against the concrete working environment, the empty body
is accepted as the empty object and both routes answer as amended. -/
theorem C10_empty_body_witness :
    handler envOk ⟨"POST", "/api/news", some "Bearer tok", .readOk ""⟩ ⟨none, .absent⟩
      = (⟨400, .err "text is required"⟩, ⟨none, .absent⟩)
    ∧ handler envOk ⟨"POST", "/api/login", some "Bearer tok", .readOk ""⟩ ⟨none, .absent⟩
      = (⟨401, .err "Invalid credentials"⟩, ⟨none, .absent⟩) :=
  C10_empty_body envOk ⟨none, .absent⟩ (some "Bearer tok") ⟨"admin", "admin"⟩
    (by decide) (by decide)
